import Mathlib

/-!
Verification of the oshi.at API client (oshi.go).

The development shallowly embeds the pure parts of the client:

* the two regular-expression response parsers
  (`uploadResponseRegex = (https?://[^\s]+)\s+\[([^\]]+)\]` used by
  `parseUploadResponse`, and
  `hashsumResponseRegex = ([0-9a-zA-Z]+)\s+\(([^\]]+)\)` used by
  `parseHashsumResponse`);
* the query-parameter construction of `prepareUploadURL`;
* the HTTP status classification shared by the four operations
  `Upload`, `GetHashsum`, `Delete`, `GetTorEndpoint`;
* the client construction (`NewClient`, `WithEndpoint`).

Both Go regexes are simple enough that Go's leftmost-first greedy
matching collapses to deterministic maximal-run scanning: every greedy
sub-pattern is followed by a character class disjoint from it, except
the final `([^\]]+)\)` of the hashsum regex, where greedy backtracking
amounts to splitting the maximal `[^\]]*` run at its last `)`.
The matchers below implement exactly those semantics.
-/

/-- Go's RE2 character class `\s` = `[\t\n\f\r ]` (ASCII only). -/
def goIsSpace (c : Char) : Bool :=
  c == '\t' || c == '\n' || c == '\x0c' || c == '\r' || c == ' '

/-- Go's character class `[0-9a-zA-Z]`. -/
def goIsAlnum (c : Char) : Bool :=
  ('0' ≤ c && c ≤ '9') || ('a' ≤ c && c ≤ 'z') || ('A' ≤ c && c ≤ 'Z')

/-- Match a literal character sequence at the head of the input,
returning the remainder on success. -/
def matchLit : List Char → List Char → Option (List Char)
  | [], s => some s
  | _ :: _, [] => none
  | c :: p, d :: s => if d = c then matchLit p s else none

/-- The scheme part `https?://` of `uploadResponseRegex`, with greedy
`s?`: the branch with `s` is tried first, exactly as a leftmost-first
backtracking engine would. Returns the consumed scheme and the rest. -/
def matchScheme (s : List Char) : Option (List Char × List Char) :=
  match matchLit "https://".data s with
  | some r => some ("https://".data, r)
  | none =>
    match matchLit "http://".data s with
    | some r => some ("http://".data, r)
    | none => none

/-- One attempt of `uploadResponseRegex = (https?://[^\s]+)\s+\[([^\]]+)\]`
anchored at the head of `s`.  Returns `(captured URL, captured label,
rest of the input after the match)`.  Each greedy run (`[^\s]+`, `\s+`,
`[^\]]+`) is followed by a requirement its own class can never satisfy,
so backtracking can never shorten it and the maximal run is the only
candidate. -/
def matchUploadAt (s : List Char) : Option (List Char × List Char × List Char) :=
  match matchScheme s with
  | none => none
  | some (sch, r1) =>
    let host := r1.takeWhile (fun c => !goIsSpace c)
    let r2 := r1.dropWhile (fun c => !goIsSpace c)
    if host.isEmpty then none
    else
      let ws := r2.takeWhile goIsSpace
      let r3 := r2.dropWhile goIsSpace
      if ws.isEmpty then none
      else
        match r3 with
        | '[' :: r4 =>
          let lab := r4.takeWhile (fun c => c != ']')
          let r5 := r4.dropWhile (fun c => c != ']')
          if lab.isEmpty then none
          else
            match r5 with
            | ']' :: rest => some (sch ++ host, lab, rest)
            | _ => none
        | _ => none

/-- Fuel-indexed scan implementing `FindAllStringSubmatch(s, -1)`:
try a match at every position from left to right; on success record the
two capture groups and continue after the match (matches are nonempty,
hence non-overlapping); on failure advance one character. -/
def scanUploadF : Nat → List Char → List (List Char × List Char)
  | 0, _ => []
  | _ + 1, [] => []
  | f + 1, c :: rest =>
    match matchUploadAt (c :: rest) with
    | some (u, lab, r) => (u, lab) :: scanUploadF f r
    | none => scanUploadF f rest

/-- All matches of `uploadResponseRegex` in the input, in order. -/
def scanUpload (s : List Char) : List (List Char × List Char) :=
  scanUploadF s.length s

/-- Go struct `UploadResponse`. -/
structure UploadResponse where
  Admin : String
  Download : String
  TorDownload : String
deriving DecidableEq, Repr

/-- The body of the `for _, match := range matches` loop of
`parseUploadResponse`: lower-case the label capture and assign the URL
capture to the field selected by the `switch`; unrecognized labels
leave the accumulator unchanged. -/
def assignMatch (resp : UploadResponse) (m : List Char × List Char) : UploadResponse :=
  let url := String.mk m.1
  let label := String.mk (m.2.map Char.toLower)
  if label = "admin" then { resp with Admin := url }
  else if label = "download" then { resp with Download := url }
  else if label = "tor download" then { resp with TorDownload := url }
  else resp

/-- `Client.parseUploadResponse` (oshi.go lines 288-308): find all
regex matches and fold the switch over them, starting from the zero
`UploadResponse`. -/
def parseUploadResponse (body : String) : UploadResponse :=
  (scanUpload body.data).foldl assignMatch ⟨"", "", ""⟩

/-- Index of the last `)` in a character list, if any. -/
def lastIdxParen : List Char → Option Nat
  | [] => none
  | c :: rest =>
    match lastIdxParen rest with
    | some j => some (j + 1)
    | none => if c = ')' then some 0 else none

/-- One attempt of `hashsumResponseRegex = ([0-9a-zA-Z]+)\s+\(([^\]]+)\)`
anchored at the head of `s`.  Returns `(hashsum capture, algorithm
capture)`.  The class `[^\]]` excludes `]` (not `)`), so the greedy
group `([^\]]+)` followed by `\)` matches the longest nonempty
`]`-free prefix that is followed by `)`: the maximal `]`-free run is
split at its last `)`. -/
def matchHashsumAt (s : List Char) : Option (List Char × List Char) :=
  let hs := s.takeWhile goIsAlnum
  let r1 := s.dropWhile goIsAlnum
  if hs.isEmpty then none
  else
    let ws := r1.takeWhile goIsSpace
    let r2 := r1.dropWhile goIsSpace
    if ws.isEmpty then none
    else
      match r2 with
      | '(' :: r3 =>
        let m := r3.takeWhile (fun c => c != ']')
        match lastIdxParen m with
        | some j => if 1 ≤ j then some (hs, m.take j) else none
        | none => none
      | _ => none

/-- Leftmost match of `hashsumResponseRegex`, implementing
`FindStringSubmatch`: try each position from the left, return the
first successful match. -/
def scanHashsum : List Char → Option (List Char × List Char)
  | [] => none
  | c :: rest =>
    match matchHashsumAt (c :: rest) with
    | some p => some p
    | none => scanHashsum rest

/-- Go struct `GetHashsumResponse`. -/
structure GetHashsumResponse where
  Algorithm : String
  Hashsum : String
deriving DecidableEq, Repr

/-- The two error shapes the client can produce:
`&Error{StatusCode, Message}` for a non-200 status, and
`fmt.Errorf("%w: %s", ErrWrongResponse, body)` from the hashsum
parser. -/
inductive OshiError where
  | serviceError (statusCode : Nat) (message : String)
  | wrongResponse (body : String)
deriving DecidableEq, Repr

/-- The rendered error text: `(*Error).Error()` formats
`"Status %d: %s"`; the wrapped sentinel renders as
`"wrong response: <body>"`. -/
def errorMessage : OshiError → String
  | .serviceError code msg => "Status " ++ Nat.repr code ++ ": " ++ msg
  | .wrongResponse body => "wrong response: " ++ body

/-- `Client.parseHashsumResponse` (oshi.go lines 181-192): on a match,
capture group 1 is the hashsum and group 2 the algorithm; when
`FindStringSubmatch` yields fewer than `hashsumMatches = 3` entries
(i.e. no match, since both groups are mandatory), return the zero
result together with the wrapped `ErrWrongResponse` carrying the raw
body. -/
def parseHashsumResponse (body : String) : GetHashsumResponse × Option OshiError :=
  match scanHashsum body.data with
  | some (hs, alg) => ({ Algorithm := String.mk alg, Hashsum := String.mk hs }, none)
  | none => ({ Algorithm := "", Hashsum := "" }, some (OshiError.wrongResponse body))

/-- Go struct `Image`: the upload request.  The byte source behind the
`io.Reader` is modelled as the byte list it yields; `expire` is the
`uint64` expiry value. -/
structure Image where
  file : List UInt8
  filename : String
  expire : Nat
  autodestroy : Bool
  randomizefn : Bool
  shorturl : Bool
deriving DecidableEq, Repr

/-- `NewImage`: wraps the byte slice into a reader and records the
directives. -/
def NewImage (file : List UInt8) (filename : String) (expire : Nat)
    (autodestroy randomizefn shorturl : Bool) : Image :=
  { file := file, filename := filename, expire := expire,
    autodestroy := autodestroy, randomizefn := randomizefn, shorturl := shorturl }

/-- `url.Values.Set(key, value)`: the values map (modelled as a
function from key to value list) now maps `key` to the single-element
list `[value]`. -/
def valuesSet (q : String → List String) (k v : String) : String → List String :=
  fun k' => if k' = k then [v] else q k'

/-- The query-parameter construction inside `Client.prepareUploadURL`
(oshi.go lines 255-286): starting from the base endpoint's query
values `base` (empty for the default endpoint `https://oshi.at`), set
`filename` when it differs from the literal constant `"filename"`,
`expire` (base-10, `strconv.FormatUint`) when positive, and each of
`autodestroy`/`randomizefn`/`shorturl` to `"1"` when its boolean is
true. -/
def prepareUploadQuery (base : String → List String) (img : Image) : String → List String :=
  let q0 := base
  let q1 := if img.filename ≠ "filename" then valuesSet q0 "filename" img.filename else q0
  let q2 := if img.expire > 0 then valuesSet q1 "expire" (Nat.repr img.expire) else q1
  let q3 := if img.autodestroy then valuesSet q2 "autodestroy" "1" else q2
  let q4 := if img.randomizefn then valuesSet q3 "randomizefn" "1" else q3
  let q5 := if img.shorturl then valuesSet q4 "shorturl" "1" else q4
  q5

/-- `defaultEndpoint = "https://oshi.at"`. -/
def defaultEndpoint : String := "https://oshi.at"

/-- Go struct `Client`: endpoint plus the injected `*http.Client`,
the latter modelled as an opaque handle. -/
structure Client where
  endpoint : String
  httpClient : Nat
deriving DecidableEq, Repr

/-- The functional-option type `Option func(client *Client)` of the
Go API (named `ClientOption` here to avoid clashing with `Option`). -/
def ClientOption : Type := Client → Client

/-- `WithEndpoint`: the option that overwrites the client's endpoint. -/
def WithEndpoint (endpoint : String) : ClientOption :=
  fun client => { client with endpoint := endpoint }

/-- `NewClient` (oshi.go lines 102-113): start from the default
endpoint and the injected transport, then apply each option in
order. -/
def NewClient (httpClient : Nat) (opts : List ClientOption) : Client :=
  opts.foldl (fun client o => o client) { endpoint := defaultEndpoint, httpClient := httpClient }

/-- The response handed back by the injected HTTP transport: status
code plus the fully read body text. -/
structure HTTPResponse where
  statusCode : Nat
  body : String
deriving DecidableEq, Repr

/-- The response-handling phase of `Client.Upload` (oshi.go lines
218-253): request construction and transport failures are outside the
model; given the transport's response, any status other than 200
yields the zero result and a `ServiceError` carrying status and body,
and a 200 status yields the parsed body.  The client value is threaded
through unchanged, as the method body never assigns to the receiver's
fields. -/
def Upload (c : Client) (img : Image) (resp : HTTPResponse) :
    (UploadResponse × Option OshiError) × Client :=
  if resp.statusCode ≠ 200 then
    ((⟨"", "", ""⟩, some (OshiError.serviceError resp.statusCode resp.body)), c)
  else
    ((parseUploadResponse resp.body, none), c)

/-- The response-handling phase of `Client.GetHashsum` (oshi.go lines
148-179): non-200 yields the zero result and a `ServiceError`; 200
defers to the strict hashsum parser. -/
def GetHashsum (c : Client) (file : String) (resp : HTTPResponse) :
    (GetHashsumResponse × Option OshiError) × Client :=
  if resp.statusCode ≠ 200 then
    ((⟨"", ""⟩, some (OshiError.serviceError resp.statusCode resp.body)), c)
  else
    (parseHashsumResponse resp.body, c)

/-- The response-handling phase of `Client.Delete` (oshi.go lines
195-216): non-200 yields a `ServiceError` with the (lazily read) body;
200 yields success with no result value. -/
def Delete (c : Client) (adminURL : String) (resp : HTTPResponse) :
    Option OshiError × Client :=
  if resp.statusCode ≠ 200 then
    (some (OshiError.serviceError resp.statusCode resp.body), c)
  else
    (none, c)

/-- The response-handling phase of `Client.GetTorEndpoint` (oshi.go
lines 116-146): non-200 yields the empty string and a `ServiceError`;
200 returns the body text verbatim. -/
def GetTorEndpoint (c : Client) (resp : HTTPResponse) :
    (String × Option OshiError) × Client :=
  if resp.statusCode ≠ 200 then
    (("", some (OshiError.serviceError resp.statusCode resp.body)), c)
  else
    ((resp.body, none), c)

/-- One well-formed artifact line of an upload response body:
`<scheme><tail><ws>[<label>]`. -/
def mkUnit (sch tail w lab : List Char) : List Char :=
  sch ++ tail ++ w ++ '[' :: (lab ++ [']'])

/-! ### Helper lemmas about maximal runs -/

theorem span_stop {p : Char → Bool} (a : List Char) (b0 : Char) (btl : List Char)
    (ha : ∀ x ∈ a, p x = true) (hb : p b0 = false) :
    (a ++ b0 :: btl).takeWhile p = a ∧ (a ++ b0 :: btl).dropWhile p = b0 :: btl := by
  induction a with
  | nil => simp [List.takeWhile_cons, List.dropWhile_cons, hb]
  | cons c ctl ih =>
    have hc : p c = true := ha c (by simp)
    have ih' := ih (fun x hx => ha x (by simp [hx]))
    simp [List.takeWhile_cons, List.dropWhile_cons, hc, ih'.1, ih'.2]

theorem matchLit_eq : ∀ {p s r : List Char}, matchLit p s = some r → s = p ++ r := by
  intro p
  induction p with
  | nil => intro s r h; simp [matchLit] at h; simp [h]
  | cons c ptl ih =>
    intro s r h
    cases s with
    | nil => simp [matchLit] at h
    | cons d stl =>
      simp only [matchLit] at h
      split at h
      · next heq => subst heq; simpa using ih h
      · exact absurd h (by simp)

theorem matchScheme_http (X : List Char) :
    matchScheme ("http://".data ++ X) = some ("http://".data, X) := rfl

theorem matchScheme_https (X : List Char) :
    matchScheme ("https://".data ++ X) = some ("https://".data, X) := rfl

theorem matchScheme_eq {s sch r : List Char} (h : matchScheme s = some (sch, r)) :
    s = sch ++ r ∧ (sch = "https://".data ∨ sch = "http://".data) := by
  unfold matchScheme at h
  cases h1 : matchLit "https://".data s with
  | some r1 =>
    rw [h1] at h
    simp only [Option.some.injEq, Prod.mk.injEq] at h
    obtain ⟨rfl, rfl⟩ := h
    exact ⟨matchLit_eq h1, Or.inl rfl⟩
  | none =>
    rw [h1] at h
    cases h2 : matchLit "http://".data s with
    | some r2 =>
      rw [h2] at h
      simp only [Option.some.injEq, Prod.mk.injEq] at h
      obtain ⟨rfl, rfl⟩ := h
      exact ⟨matchLit_eq h2, Or.inr rfl⟩
    | none => rw [h2] at h; exact absurd h (by simp)

/-! ### The anchored upload match on a well-formed artifact line -/

theorem matchUploadAt_unit {sch t w lab : List Char} (rest : List Char)
    (hsch : sch = "http://".data ∨ sch = "https://".data)
    (ht : t ≠ []) (htw : ∀ c ∈ t, goIsSpace c = false)
    (hw : w ≠ []) (hws : ∀ c ∈ w, goIsSpace c = true)
    (hl : lab ≠ []) (hlb : ∀ c ∈ lab, (c != ']') = true) :
    matchUploadAt (mkUnit sch t w lab ++ rest) = some (sch ++ t, lab, rest) := by
  obtain ⟨wc, wtl, rfl⟩ : ∃ wc wtl, w = wc :: wtl := by
    cases w with
    | nil => exact absurd rfl hw
    | cons a b => exact ⟨a, b, rfl⟩
  have hbody : mkUnit sch t (wc :: wtl) lab ++ rest =
      sch ++ (t ++ (wc :: (wtl ++ ('[' :: (lab ++ (']' :: rest)))))) := by
    simp [mkUnit]
  rw [hbody]
  have hms : matchScheme (sch ++ (t ++ (wc :: (wtl ++ ('[' :: (lab ++ (']' :: rest))))))) =
      some (sch, t ++ (wc :: (wtl ++ ('[' :: (lab ++ (']' :: rest)))))) := by
    rcases hsch with h | h <;> subst h
    · exact matchScheme_http _
    · exact matchScheme_https _
  have hwc : goIsSpace wc = true := hws wc (by simp)
  have hhost := span_stop (p := fun c => !goIsSpace c) t wc
    (wtl ++ ('[' :: (lab ++ (']' :: rest))))
    (fun x hx => by simp [htw x hx]) (by simp [hwc])
  have hwsrun := span_stop (p := goIsSpace) (wc :: wtl) '['
    (lab ++ (']' :: rest))
    (fun x hx => hws x hx) (by decide)
  have hlabrun := span_stop (p := fun c => c != ']') lab ']' rest
    (fun x hx => hlb x hx) (by decide)
  have htne : t.isEmpty = false := by cases t with
    | nil => exact absurd rfl ht
    | cons a b => rfl
  have hlne : lab.isEmpty = false := by cases lab with
    | nil => exact absurd rfl hl
    | cons a b => rfl
  unfold matchUploadAt
  rw [hms]
  simp only [List.cons_append, List.append_assoc] at hhost hwsrun hlabrun
  simp only [hhost.1, hhost.2, htne, Bool.false_eq_true, if_false, List.cons_append,
    List.append_assoc]
  simp only [show wc :: (wtl ++ ('[' :: (lab ++ (']' :: rest)))) =
      (wc :: wtl) ++ ('[' :: (lab ++ (']' :: rest))) from rfl] at hwsrun ⊢
  simp only [hwsrun.1, hwsrun.2]
  simp only [List.isEmpty_cons, Bool.false_eq_true, if_false]
  simp only [hlabrun.1, hlabrun.2, hlne, Bool.false_eq_true, if_false]

/-! ### Decomposition of a successful upload match and scan equations -/

theorem matchUploadAt_decomp {s u lab r : List Char}
    (h : matchUploadAt s = some (u, lab, r)) :
    ∃ sch host ws,
      (sch = "https://".data ∨ sch = "http://".data) ∧
      s = sch ++ (host ++ (ws ++ ('[' :: (lab ++ (']' :: r))))) ∧ u = sch ++ host := by
  unfold matchUploadAt at h
  cases hms : matchScheme s with
  | none => rw [hms] at h; exact absurd h (by simp)
  | some p =>
    obtain ⟨sch, r1⟩ := p
    rw [hms] at h
    obtain ⟨hsr, hschemes⟩ := matchScheme_eq hms
    simp only at h
    split at h
    · exact absurd h (by simp)
    · next hhost =>
      split at h
      · exact absurd h (by simp)
      · next hws =>
        split at h
        · next r4 h3 =>
          split at h
          · exact absurd h (by simp)
          · next hlab =>
            split at h
            · next rest h5 =>
              simp only [Option.some.injEq, Prod.mk.injEq] at h
              obtain ⟨hu, hlabeq, hr⟩ := h
              refine ⟨sch, r1.takeWhile (fun c => !goIsSpace c),
                (r1.dropWhile (fun c => !goIsSpace c)).takeWhile goIsSpace,
                hschemes, ?_, hu.symm⟩
              subst hlabeq hr
              rw [hsr]
              congr 1
              conv_lhs => rw [← List.takeWhile_append_dropWhile
                (p := fun c => !goIsSpace c) (l := r1)]
              congr 1
              conv_lhs => rw [← List.takeWhile_append_dropWhile
                (p := goIsSpace) (l := r1.dropWhile (fun c => !goIsSpace c))]
              rw [h3]
              congr 1
              conv_lhs => rw [← List.takeWhile_append_dropWhile
                (p := fun c => c != ']') (l := r4)]
              rw [h5]
            · exact absurd h (by simp)
        · exact absurd h (by simp)

theorem matchUploadAt_length {s u lab r : List Char}
    (h : matchUploadAt s = some (u, lab, r)) : r.length < s.length := by
  obtain ⟨sch, host, ws, hsch, hs, -⟩ := matchUploadAt_decomp h
  have : sch.length > 0 := by rcases hsch with h1 | h1 <;> subst h1 <;> decide
  subst hs
  simp [List.length_append]
  omega

theorem matchUploadAt_colon {s : List Char} {x : List Char × List Char × List Char}
    (h : matchUploadAt s = some x) : ':' ∈ s := by
  obtain ⟨u, lab, r⟩ := x
  obtain ⟨sch, host, ws, hsch, hs, -⟩ := matchUploadAt_decomp h
  have : ':' ∈ sch := by rcases hsch with h1 | h1 <;> subst h1 <;> decide
  subst hs
  simp [this]

theorem scanUploadF_nil : ∀ f, scanUploadF f [] = [] := by
  intro f; cases f <;> rfl

theorem scanUploadF_congr : ∀ (f g : Nat) (s : List Char),
    s.length ≤ f → s.length ≤ g → scanUploadF f s = scanUploadF g s := by
  intro f
  induction f with
  | zero =>
    intro g s hf _
    have : s = [] := List.eq_nil_of_length_eq_zero (Nat.le_zero.mp hf)
    subst this
    rw [scanUploadF_nil, scanUploadF_nil]
  | succ f ih =>
    intro g s hf hg
    cases s with
    | nil => rw [scanUploadF_nil, scanUploadF_nil]
    | cons c rest =>
      cases g with
      | zero => simp at hg
      | succ g =>
        show scanUploadF (f + 1) (c :: rest) = scanUploadF (g + 1) (c :: rest)
        simp only [scanUploadF]
        cases hm : matchUploadAt (c :: rest) with
        | some p =>
          obtain ⟨u, lab, r⟩ := p
          have hlen := matchUploadAt_length hm
          simp only [List.length_cons] at hf hg
          have : r.length ≤ f := by simp only [List.length_cons] at hlen; omega
          have hg' : r.length ≤ g := by simp only [List.length_cons] at hlen; omega
          dsimp only
          rw [ih g r this hg']
        | none =>
          simp only [List.length_cons] at hf hg
          dsimp only
          exact ih g rest (by omega) (by omega)

theorem scanUpload_nil : scanUpload [] = [] := rfl

theorem scanUpload_cons_some {c : Char} {l u lab r : List Char}
    (h : matchUploadAt (c :: l) = some (u, lab, r)) :
    scanUpload (c :: l) = (u, lab) :: scanUpload r := by
  have hlen := matchUploadAt_length h
  simp only [List.length_cons] at hlen
  show scanUploadF (l.length + 1) (c :: l) = _
  simp only [scanUploadF, h]
  rw [scanUploadF_congr l.length r.length r (by omega) (by omega)]
  rfl

theorem scanUpload_cons_none {c : Char} {l : List Char}
    (h : matchUploadAt (c :: l) = none) :
    scanUpload (c :: l) = scanUpload l := by
  show scanUploadF (l.length + 1) (c :: l) = _
  simp only [scanUploadF, h]
  rfl

/-- Scanning skips over any all-whitespace segment: a match must start
with `h`, and no Go whitespace character is `h`. -/
theorem scanUpload_ws_append {ws : List Char} (rest : List Char)
    (hws : ∀ c ∈ ws, goIsSpace c = true) :
    scanUpload (ws ++ rest) = scanUpload rest := by
  induction ws with
  | nil => rfl
  | cons c ctl ih =>
    have hc : goIsSpace c = true := hws c (by simp)
    have hch : c ≠ 'h' := by
      intro hcontra
      subst hcontra
      simp [goIsSpace] at hc
    have hm : matchUploadAt (c :: (ctl ++ rest)) = none := by
      cases hm : matchUploadAt (c :: (ctl ++ rest)) with
      | none => rfl
      | some x =>
        obtain ⟨u, lab, r⟩ := x
        obtain ⟨sch, host, w, hsch, hs, -⟩ := matchUploadAt_decomp hm
        rcases hsch with h1 | h1 <;> subst h1 <;>
          exact absurd (List.head_eq_of_cons_eq hs) (by simpa using hch)
    rw [List.cons_append, scanUpload_cons_none hm]
    exact ih (fun x hx => hws x (by simp [hx]))

theorem scanUpload_all_ws {ws : List Char}
    (hws : ∀ c ∈ ws, goIsSpace c = true) : scanUpload ws = [] := by
  have := scanUpload_ws_append [] hws
  rw [List.append_nil] at this
  rw [this, scanUpload_nil]

/-- Scanning a well-formed artifact line at the head of the input
yields its two captures followed by the scan of the remainder. -/
theorem scanUpload_unit {sch t w lab : List Char} (rest : List Char)
    (hsch : sch = "http://".data ∨ sch = "https://".data)
    (ht : t ≠ []) (htw : ∀ c ∈ t, goIsSpace c = false)
    (hw : w ≠ []) (hws : ∀ c ∈ w, goIsSpace c = true)
    (hl : lab ≠ []) (hlb : ∀ c ∈ lab, (c != ']') = true) :
    scanUpload (mkUnit sch t w lab ++ rest) = (sch ++ t, lab) :: scanUpload rest := by
  have hm := matchUploadAt_unit rest hsch ht htw hw hws hl hlb
  rcases hsch with h1 | h1 <;> subst h1 <;>
    exact scanUpload_cons_some hm

/-- A body without a colon contains no match (the scheme requires
`://`). -/
theorem scanUpload_no_colon {l : List Char} (h : ∀ c ∈ l, c ≠ ':') :
    scanUpload l = [] := by
  induction l with
  | nil => rfl
  | cons c rest ih =>
    have hm : matchUploadAt (c :: rest) = none := by
      cases hm : matchUploadAt (c :: rest) with
      | none => rfl
      | some x =>
        exact absurd rfl (h ':' (matchUploadAt_colon hm))
    rw [scanUpload_cons_none hm]
    exact ih (fun x hx => h x (by simp [hx]))

/-! ### The assignment switch -/

theorem assignMatch_admin (resp : UploadResponse) (u l : List Char)
    (h : l.map Char.toLower = "admin".data) :
    assignMatch resp (u, l) = { resp with Admin := String.mk u } := by
  unfold assignMatch
  dsimp only
  rw [h, show String.mk "admin".data = "admin" from rfl, if_pos rfl]

theorem assignMatch_download (resp : UploadResponse) (u l : List Char)
    (h : l.map Char.toLower = "download".data) :
    assignMatch resp (u, l) = { resp with Download := String.mk u } := by
  unfold assignMatch
  dsimp only
  rw [h, show String.mk "download".data = "download" from rfl,
    if_neg (by decide), if_pos rfl]

theorem assignMatch_tor (resp : UploadResponse) (u l : List Char)
    (h : l.map Char.toLower = "tor download".data) :
    assignMatch resp (u, l) = { resp with TorDownload := String.mk u } := by
  unfold assignMatch
  dsimp only
  rw [h, show String.mk "tor download".data = "tor download" from rfl,
    if_neg (by decide), if_neg (by decide), if_pos rfl]

/-- A label is nonempty and `]`-free whenever its lower-casing is a
nonempty `]`-free list (lower-casing fixes `]`). -/
theorem label_ok_of_lower {l low : List Char} (h : l.map Char.toLower = low)
    (hne : low ≠ []) (hnb : ']' ∉ low) :
    l ≠ [] ∧ ∀ c ∈ l, (c != ']') = true := by
  constructor
  · intro h0
    subst h0
    simp at h
    exact hne h
  · intro c hc
    have hmem : Char.toLower c ∈ low := by
      subst h
      exact List.mem_map_of_mem _ hc
    by_cases hcb : c = ']'
    · subst hcb
      rw [show Char.toLower ']' = ']' from by decide] at hmem
      exact absurd hmem hnb
    · simp [bne_iff_ne, hcb]

/-! ### Small permutation case analyses -/

theorem valuesSet_same (q : String → List String) (k v : String) :
    valuesSet q k v k = [v] := by
  simp [valuesSet]

theorem valuesSet_other (q : String → List String) (k v k' : String) (h : k' ≠ k) :
    valuesSet q k v k' = q k' := by
  simp [valuesSet, h]

theorem setIf_other {b : Prop} [Decidable b] (q : String → List String)
    (k v k' : String) (h : k' ≠ k) :
    (if b then valuesSet q k v else q) k' = q k' := by
  split
  · exact valuesSet_other q k v k' h
  · rfl

theorem setIf_same {b : Prop} [Decidable b] (q : String → List String) (k v : String) :
    (if b then valuesSet q k v else q) k = if b then [v] else q k := by
  split
  · exact valuesSet_same q k v
  · rfl

/-- **C2**: `deadbeef (sha256)` parses to algorithm `sha256` and
hashsum `deadbeef`; any body on which the pattern finds no match (so
`FindStringSubmatch` yields fewer than the required three entries)
produces the zero result together with the WrongResponse error, whose
rendered message contains the original body text. -/
theorem hashsum_parse_spec :
    parseHashsumResponse "deadbeef (sha256)" =
      ({ Algorithm := "sha256", Hashsum := "deadbeef" }, none) ∧
    ∀ body : String, scanHashsum body.data = none →
      parseHashsumResponse body =
        ({ Algorithm := "", Hashsum := "" }, some (OshiError.wrongResponse body)) ∧
      errorMessage (OshiError.wrongResponse body) = "wrong response: " ++ body := by
  refine ⟨by decide, ?_⟩
  intro body h
  constructor
  · unfold parseHashsumResponse
    rw [h]
  · rfl

/-- Witness for **C2** at a body without any match. -/
theorem hashsum_parse_spec_witness :
    parseHashsumResponse "no match here" =
      ({ Algorithm := "", Hashsum := "" }, some (OshiError.wrongResponse "no match here")) :=
  (hashsum_parse_spec.2 "no match here" (by decide)).1

/-- **C3**: `prepareUploadURL` attaches a query parameter only when the
directive differs from its default: `filename` only when the image's
filename differs from the literal `"filename"`, `expire` (base-10)
only when positive, and the three booleans as `"1"` only when true;
default/false directives are omitted entirely. -/
theorem prepareUploadQuery_defaults (base : String → List String) (img : Image)
    (hf : base "filename" = []) (he : base "expire" = [])
    (ha : base "autodestroy" = []) (hr : base "randomizefn" = [])
    (hs : base "shorturl" = []) :
    prepareUploadQuery base img "filename" =
      (if img.filename ≠ "filename" then [img.filename] else []) ∧
    prepareUploadQuery base img "expire" =
      (if img.expire > 0 then [Nat.repr img.expire] else []) ∧
    prepareUploadQuery base img "autodestroy" = (if img.autodestroy then ["1"] else []) ∧
    prepareUploadQuery base img "randomizefn" = (if img.randomizefn then ["1"] else []) ∧
    prepareUploadQuery base img "shorturl" = (if img.shorturl then ["1"] else []) := by
  unfold prepareUploadQuery
  refine ⟨?_, ?_, ?_, ?_, ?_⟩
  · rw [setIf_other _ _ _ _ (by decide), setIf_other _ _ _ _ (by decide),
      setIf_other _ _ _ _ (by decide), setIf_other _ _ _ _ (by decide),
      setIf_same, hf]
  · rw [setIf_other _ _ _ _ (by decide), setIf_other _ _ _ _ (by decide),
      setIf_other _ _ _ _ (by decide), setIf_same,
      setIf_other _ _ _ _ (by decide), he]
  · rw [setIf_other _ _ _ _ (by decide), setIf_other _ _ _ _ (by decide),
      setIf_same, setIf_other _ _ _ _ (by decide),
      setIf_other _ _ _ _ (by decide), ha]
  · rw [setIf_other _ _ _ _ (by decide), setIf_same,
      setIf_other _ _ _ _ (by decide), setIf_other _ _ _ _ (by decide),
      setIf_other _ _ _ _ (by decide), hr]
  · rw [setIf_same, setIf_other _ _ _ _ (by decide),
      setIf_other _ _ _ _ (by decide), setIf_other _ _ _ _ (by decide),
      setIf_other _ _ _ _ (by decide), hs]

/-- Witness for **C3**: custom filename, expire 5, autodestroy true,
randomizefn and shorturl false, over the default endpoint's empty
query. -/
theorem prepareUploadQuery_defaults_witness :
    prepareUploadQuery (fun _ => []) (NewImage [] "x" 5 true false false) "filename" = ["x"] ∧
    prepareUploadQuery (fun _ => []) (NewImage [] "x" 5 true false false) "expire" = ["5"] ∧
    prepareUploadQuery (fun _ => []) (NewImage [] "x" 5 true false false) "autodestroy" = ["1"] ∧
    prepareUploadQuery (fun _ => []) (NewImage [] "x" 5 true false false) "randomizefn" = [] ∧
    prepareUploadQuery (fun _ => []) (NewImage [] "x" 5 true false false) "shorturl" = [] := by
  obtain ⟨h1, h2, h3, h4, h5⟩ := prepareUploadQuery_defaults (fun _ => [])
    (NewImage [] "x" 5 true false false) rfl rfl rfl rfl rfl
  exact ⟨h1.trans (by decide), h2.trans (by decide), h3.trans (by decide),
    h4.trans (by decide), h5.trans (by decide)⟩

/-- **C4**: for each of the four operations, any status other than 200
yields a ServiceError carrying exactly the status code and body
returned by the transport, the result value is the zero result, and no
parser output reaches the caller. -/
theorem non200_service_error (c : Client) (img : Image) (file adminURL : String)
    (resp : HTTPResponse) (h : resp.statusCode ≠ 200) :
    Upload c img resp =
      ((⟨"", "", ""⟩, some (OshiError.serviceError resp.statusCode resp.body)), c) ∧
    GetHashsum c file resp =
      ((⟨"", ""⟩, some (OshiError.serviceError resp.statusCode resp.body)), c) ∧
    Delete c adminURL resp =
      (some (OshiError.serviceError resp.statusCode resp.body), c) ∧
    GetTorEndpoint c resp =
      (("", some (OshiError.serviceError resp.statusCode resp.body)), c) := by
  refine ⟨?_, ?_, ?_, ?_⟩ <;>
    simp only [Upload, GetHashsum, Delete, GetTorEndpoint, if_pos h]

/-- Witness for **C4** at a 404 response. -/
theorem non200_service_error_witness :
    Upload ⟨defaultEndpoint, 0⟩ (NewImage [] "filename" 0 false false false) ⟨404, "not found"⟩ =
      ((⟨"", "", ""⟩, some (OshiError.serviceError 404 "not found")), ⟨defaultEndpoint, 0⟩) ∧
    GetHashsum ⟨defaultEndpoint, 0⟩ "f" ⟨404, "not found"⟩ =
      ((⟨"", ""⟩, some (OshiError.serviceError 404 "not found")), ⟨defaultEndpoint, 0⟩) ∧
    Delete ⟨defaultEndpoint, 0⟩ "adminURL" ⟨404, "not found"⟩ =
      (some (OshiError.serviceError 404 "not found"), ⟨defaultEndpoint, 0⟩) ∧
    GetTorEndpoint ⟨defaultEndpoint, 0⟩ ⟨404, "not found"⟩ =
      (("", some (OshiError.serviceError 404 "not found")), ⟨defaultEndpoint, 0⟩) :=
  non200_service_error ⟨defaultEndpoint, 0⟩ (NewImage [] "filename" 0 false false false)
    "f" "adminURL" ⟨404, "not found"⟩ (by decide)

/-- **C5**: `parseUploadResponse` is total: every body yields an
`UploadResponse` (the Go function returns no error), and a garbage
body — here any body without a `:`, which therefore cannot contain a
scheme — yields the all-empty result. -/
theorem parseUploadResponse_total (body : String) :
    (∃ a d t, parseUploadResponse body = ⟨a, d, t⟩) ∧
    ((∀ c ∈ body.data, c ≠ ':') → parseUploadResponse body = ⟨"", "", ""⟩) := by
  constructor
  · exact ⟨_, _, _, rfl⟩
  · intro h
    unfold parseUploadResponse
    rw [scanUpload_no_colon h]
    rfl

/-- Witness for **C5** at a garbage body. -/
theorem parseUploadResponse_total_witness :
    parseUploadResponse "garbage body [no urls here]" = ⟨"", "", ""⟩ :=
  (parseUploadResponse_total "garbage body [no urls here]").2 (by decide)

/-- **C6 counterexample**: the claim says a line `t [L]` assigns `t`
regardless of `t`'s scheme; but `ftp://a [Download]` assigns nothing,
because the regex requires an `http://` or `https://` scheme. -/
theorem upload_scheme_required_cex :
    (parseUploadResponse "ftp://a [Download]").Download ≠ "ftp://a" := by decide

/-- **C6 (amended)**: for tokens of the form `http://` or `https://`
followed by a nonempty whitespace-free remainder, a line `t [L]` with
recognized label `L` assigns `t` to the corresponding field with no
further validation of the remainder's shape. -/
theorem upload_token_no_validation (sch t w lab ws0 ws1 : List Char)
    (hsch : sch = "http://".data ∨ sch = "https://".data)
    (ht : t ≠ []) (hts : ∀ c ∈ t, goIsSpace c = false)
    (hw : w ≠ []) (hwss : ∀ c ∈ w, goIsSpace c = true)
    (hws0 : ∀ c ∈ ws0, goIsSpace c = true) (hws1 : ∀ c ∈ ws1, goIsSpace c = true)
    (hlab : lab.map Char.toLower = "admin".data ∨ lab.map Char.toLower = "download".data ∨
      lab.map Char.toLower = "tor download".data) :
    parseUploadResponse (String.mk (ws0 ++ (mkUnit sch t w lab ++ ws1))) =
      (if lab.map Char.toLower = "admin".data then ⟨String.mk (sch ++ t), "", ""⟩
       else if lab.map Char.toLower = "download".data then ⟨"", String.mk (sch ++ t), ""⟩
       else ⟨"", "", String.mk (sch ++ t)⟩) := by
  have hL : lab ≠ [] ∧ ∀ c ∈ lab, (c != ']') = true := by
    rcases hlab with h | h | h <;> exact label_ok_of_lower h (by decide) (by decide)
  show List.foldl assignMatch ⟨"", "", ""⟩ (scanUpload _) = _
  rw [scanUpload_ws_append _ hws0, scanUpload_unit _ hsch ht hts hw hwss hL.1 hL.2,
    scanUpload_all_ws hws1]
  simp only [List.foldl_cons, List.foldl_nil]
  rcases hlab with h | h | h
  · rw [assignMatch_admin _ _ _ h, if_pos h]
  · rw [assignMatch_download _ _ _ h, if_neg (by rw [h]; decide), if_pos h]
  · rw [assignMatch_tor _ _ _ h, if_neg (by rw [h]; decide), if_neg (by rw [h]; decide)]

/-- Witness for **C6 (amended)** at a token whose remainder contains
brackets and a parenthesis — not a well-formed URL, assigned anyway. -/
theorem upload_token_no_validation_witness :
    parseUploadResponse (String.mk ([] ++ (mkUnit "http://".data "a]b(x".data [' ']
      "Download".data ++ []))) =
      ⟨"", String.mk ("http://".data ++ "a]b(x".data), ""⟩ :=
  (upload_token_no_validation "http://".data "a]b(x".data [' '] "Download".data [] []
    (Or.inl rfl) (by decide) (by decide) (by decide) (by decide) (by decide) (by decide)
    (Or.inr (Or.inl (by decide)))).trans (by decide)

/-- **C7**: on a 200 response `GetTorEndpoint` returns the body text
verbatim, with no transformation. -/
theorem tor_endpoint_verbatim (c : Client) (resp : HTTPResponse)
    (h : resp.statusCode = 200) :
    GetTorEndpoint c resp = ((resp.body, none), c) := by
  unfold GetTorEndpoint
  rw [if_neg (fun hc => hc h)]

/-- Witness for **C7**. -/
theorem tor_endpoint_verbatim_witness :
    GetTorEndpoint ⟨defaultEndpoint, 0⟩ ⟨200, "abcdef.onion"⟩ =
      (("abcdef.onion", none), ⟨defaultEndpoint, 0⟩) :=
  tor_endpoint_verbatim ⟨defaultEndpoint, 0⟩ ⟨200, "abcdef.onion"⟩ rfl

/-- **C8**: `NewClient` starts from the default endpoint and applies
the given options; no operation modifies the client's endpoint or
transport — each call hands the configuration back unchanged. -/
theorem client_config_immutable (h : Nat) (e : String) (c : Client) (img : Image)
    (file adminURL : String) (resp : HTTPResponse) :
    (NewClient h []).endpoint = defaultEndpoint ∧
    (NewClient h [WithEndpoint e]).endpoint = e ∧
    (Upload c img resp).2 = c ∧
    (GetHashsum c file resp).2 = c ∧
    (Delete c adminURL resp).2 = c ∧
    (GetTorEndpoint c resp).2 = c := by
  refine ⟨rfl, rfl, ?_, ?_, ?_, ?_⟩
  · unfold Upload; split <;> rfl
  · unfold GetHashsum; split <;> rfl
  · unfold Delete; split <;> rfl
  · unfold GetTorEndpoint; split <;> rfl

/-- **C9**: when several matching lines carry the same label, the later
occurrence overwrites the earlier one — the field holds the URL of the
last such line. -/
theorem upload_parse_last_wins (ws0 ws1 ws2 w1 w2 t1 t2 l1 l2 : List Char)
    (hws0 : ∀ c ∈ ws0, goIsSpace c = true) (hws1 : ∀ c ∈ ws1, goIsSpace c = true)
    (hws2 : ∀ c ∈ ws2, goIsSpace c = true)
    (hw1 : w1 ≠ []) (hw1s : ∀ c ∈ w1, goIsSpace c = true)
    (hw2 : w2 ≠ []) (hw2s : ∀ c ∈ w2, goIsSpace c = true)
    (ht1 : t1 ≠ []) (ht1s : ∀ c ∈ t1, goIsSpace c = false)
    (ht2 : t2 ≠ []) (ht2s : ∀ c ∈ t2, goIsSpace c = false)
    (hl1 : l1.map Char.toLower = "admin".data)
    (hl2 : l2.map Char.toLower = "admin".data) :
    parseUploadResponse (String.mk (ws0 ++ (mkUnit "http://".data t1 w1 l1 ++
      (ws1 ++ (mkUnit "http://".data t2 w2 l2 ++ ws2))))) =
      ⟨String.mk ("http://".data ++ t2), "", ""⟩ := by
  have hL1 := label_ok_of_lower hl1 (by decide) (by decide)
  have hL2 := label_ok_of_lower hl2 (by decide) (by decide)
  show List.foldl assignMatch ⟨"", "", ""⟩ (scanUpload _) = _
  rw [scanUpload_ws_append _ hws0,
    scanUpload_unit _ (Or.inl rfl) ht1 ht1s hw1 hw1s hL1.1 hL1.2,
    scanUpload_ws_append _ hws1,
    scanUpload_unit _ (Or.inl rfl) ht2 ht2s hw2 hw2s hL2.1 hL2.2,
    scanUpload_all_ws hws2]
  simp only [List.foldl_cons, List.foldl_nil]
  rw [assignMatch_admin _ _ _ hl1, assignMatch_admin _ _ _ hl2]

/-- Witness for **C9**: two Admin lines; the second URL wins. -/
theorem upload_parse_last_wins_witness :
    parseUploadResponse (String.mk ([] ++ (mkUnit "http://".data "a/1".data [' ']
      "Admin".data ++ (['\n'] ++ (mkUnit "http://".data "a/9".data [' ']
        "Admin".data ++ []))))) =
      ⟨String.mk ("http://".data ++ "a/9".data), "", ""⟩ :=
  upload_parse_last_wins [] ['\n'] [] [' '] [' '] "a/1".data "a/9".data
    "Admin".data "Admin".data
    (by decide) (by decide) (by decide) (by decide) (by decide) (by decide) (by decide)
    (by decide) (by decide) (by decide) (by decide) (by decide) (by decide)

/-- **C10**: the hashsum regex's parenthesized group excludes `]`
rather than `)`, so `abc (de)f)` parses successfully with an algorithm
containing `)` — the group runs greedily to the final closing
parenthesis. -/
theorem hashsum_paren_quirk :
    parseHashsumResponse "abc (de)f)" =
      ({ Algorithm := "de)f", Hashsum := "abc" }, none) ∧
    ')' ∈ (parseHashsumResponse "abc (de)f)").1.Algorithm.data := by decide
